import Mathlib

/-!
Shallow embedding of `src/main.rs` of ig1711/watchtogether.

The program is a winit/glutin/OpenGL bootstrap: `App::resumed` negotiates a
GL config, creates a window surface and context, builds a `Renderer`, and
requests vsync; `App::window_event` handles close / resize / redraw events.

Modelling conventions:
- GL calls are not executed; each method returns the list of GL commands it
  issues (`GlCommand`) so properties about *which* calls happen, with which
  arguments and in which order, are statable.
- Rust `u32` values are `Nat` (with explicit wrapping where the source casts:
  `size.width as i32` is `toInt32`); `GLfloat` literals are exact rationals,
  since the source only passes them through and never computes with them.
- A Rust `panic!`/`unwrap` failure aborts the process; fallible embedded
  functions return `Option`, `none` meaning the process aborts.
- Driver-side outcomes the source reacts to (config list, creation failures,
  compile/link status, swap-interval result) are explicit inputs.
-/

/-- A glutin `Config` as consulted by the selection fold in `App::resumed`:
`supports_transparency` returns `Option<bool>` and `num_samples` a count. -/
structure GlConfig where
  supports_transparency : Option Bool
  num_samples : Nat
deriving DecidableEq, Repr

/-- One step of the `configs.reduce(...)` closure in `App::resumed`
(src/main.rs lines 70-79): the candidate `config` replaces `accum` iff it
supports transparency while `accum` does not, or it has strictly more
samples. -/
def configStep (accum config : GlConfig) : GlConfig :=
  let transparency_check :=
    (config.supports_transparency.getD false) && !(accum.supports_transparency.getD false)
  if transparency_check || config.num_samples > accum.num_samples then config else accum

/-- `configs.reduce(configStep)` — `Iterator::reduce`: `none` on an empty
iterator (then `.unwrap()` in the source aborts), otherwise the left fold of
`configStep` seeded with the first element. -/
def selectConfig : List GlConfig → Option GlConfig
  | [] => none
  | c :: cs => some (cs.foldl configStep c)

/-- The transparency/0-sample candidate of the spec's example. -/
def cT0 : GlConfig := ⟨some true, 0⟩

/-- The no-transparency/4-sample candidate of the spec's example. -/
def cN4 : GlConfig := ⟨some false, 4⟩

/-- The no-transparency/0-sample candidate of the spec's example. -/
def cN0 : GlConfig := ⟨some false, 0⟩

/-- GL_ARRAY_BUFFER. -/
def ARRAY_BUFFER : Nat := 0x8892

/-- GL_COLOR_BUFFER_BIT. -/
def COLOR_BUFFER_BIT : Nat := 0x4000

/-- GL_TRIANGLES. -/
def TRIANGLES : Nat := 0x0004

/-- GL_VERTEX_SHADER. -/
def VERTEX_SHADER : Nat := 0x8B31

/-- GL_FRAGMENT_SHADER. -/
def FRAGMENT_SHADER : Nat := 0x8B30

/-- GL_STATIC_DRAW. -/
def STATIC_DRAW : Nat := 0x88E4

/-- The `VERTEX_DATA` array of src/main.rs (9 floats, one triangle). -/
def VERTEX_DATA : List ℚ := [-1/2, -1/2, 0, 1/2, -1/2, 0, 0, 1/2, 0]

/-- A GL command issued through the loaded `gl::Gl` function table, with the
arguments the source passes (handles are `Nat`; colors exact rationals). -/
inductive GlCommand where
  | useProgram (program : Nat)
  | bindVertexArray (vao : Nat)
  | bindBuffer (target buffer : Nat)
  | clearColor (red green blue alpha : ℚ)
  | clear (mask : Nat)
  | drawArrays (mode : Nat) (first count : Int)
  | viewport (x y width height : Int)
  | createShader (shaderType shader : Nat)
  | shaderSource (shader : Nat)
  | compileShader (shader : Nat)
  | createProgram (program : Nat)
  | attachShader (program shader : Nat)
  | linkProgram (program : Nat)
  | deleteShader (shader : Nat)
  | genVertexArrays (vao : Nat)
  | genBuffers (vbo : Nat)
  | bufferData (target size usage : Nat)
  | vertexAttribPointer (index size : Nat) (stride : Nat)
  | enableVertexAttribArray (index : Nat)
deriving DecidableEq, Repr

/-- The `Renderer` struct: program, VAO and VBO handles (the `gl` function
table itself is implicit in the command trace). -/
structure Renderer where
  program : Nat
  vao : Nat
  vbo : Nat
deriving DecidableEq, Repr

/-- Driver-side compile/link outcomes for the two shaders and the program.
The source never queries any of these (no GetShaderiv / GetProgramiv), which
is exactly what claim C7 is about. -/
structure ShaderOracle where
  vertexCompileStatus : Bool
  fragmentCompileStatus : Bool
  linkStatus : Bool
deriving DecidableEq, Repr

/-- The free function `create_shader` (src/main.rs lines 327-343): creates a
shader, sources and compiles it, and returns the handle. It never reads the
compile status, so the result does not depend on whether compilation
succeeded. -/
def create_shader (shaderType shaderId : Nat) : Nat × List GlCommand :=
  (shaderId,
   [GlCommand.createShader shaderType shaderId,
    GlCommand.shaderSource shaderId,
    GlCommand.compileShader shaderId])

/-- `Renderer::new` (src/main.rs lines 191-277): compiles both shaders, links
the program, uploads `VERTEX_DATA`, configures attribute 0. Driver-assigned
handles are modelled as fixed values (vertex shader 1, fragment shader 2,
program 1, vao 1, vbo 1). The `oracle` argument carries the driver's
compile/link outcomes; the source never inspects them and construction never
fails, so the function is total and ignores `oracle`. -/
def Renderer.new (oracle : ShaderOracle) : Renderer × List GlCommand :=
  let vs := create_shader VERTEX_SHADER 1
  let fs := create_shader FRAGMENT_SHADER 2
  let program : Nat := 1
  let vao : Nat := 1
  let vbo : Nat := 1
  let _ := oracle
  (⟨program, vao, vbo⟩,
   vs.2 ++ fs.2 ++
   [GlCommand.createProgram program,
    GlCommand.attachShader program vs.1,
    GlCommand.attachShader program fs.1,
    GlCommand.linkProgram program,
    GlCommand.useProgram program,
    GlCommand.deleteShader vs.1,
    GlCommand.deleteShader fs.1,
    GlCommand.genVertexArrays vao,
    GlCommand.bindVertexArray vao,
    GlCommand.genBuffers vbo,
    GlCommand.bindBuffer ARRAY_BUFFER vbo,
    GlCommand.bufferData ARRAY_BUFFER (VERTEX_DATA.length * 4) STATIC_DRAW,
    GlCommand.vertexAttribPointer 0 3 12,
    GlCommand.enableVertexAttribArray 0])

/-- `Renderer::draw_with_clear_color` (src/main.rs lines 283-300): bind
program, VAO and VBO, clear to the given color, draw 3 vertices. -/
def Renderer.draw_with_clear_color (self : Renderer) (red green blue alpha : ℚ) :
    List GlCommand :=
  [GlCommand.useProgram self.program,
   GlCommand.bindVertexArray self.vao,
   GlCommand.bindBuffer ARRAY_BUFFER self.vbo,
   GlCommand.clearColor red green blue alpha,
   GlCommand.clear COLOR_BUFFER_BIT,
   GlCommand.drawArrays TRIANGLES 0 3]

/-- `Renderer::draw` (src/main.rs lines 279-281):
`self.draw_with_clear_color(0.1, 0.1, 0.1, 0.9)`. -/
def Renderer.draw (self : Renderer) : List GlCommand :=
  self.draw_with_clear_color (1/10) (1/10) (1/10) (9/10)

/-- Rust `u32 as i32` (two's-complement reinterpretation), used in
`renderer.resize(size.width as i32, size.height as i32)`. -/
def toInt32 (x : Nat) : Int :=
  if x < 2 ^ 31 then (x : Int) else (x : Int) - 2 ^ 32

/-- `Renderer::resize` (src/main.rs lines 302-306): `gl.Viewport(0, 0, width,
height)`. -/
def Renderer.resize (self : Renderer) (width height : Int) : List GlCommand :=
  let _ := self
  [GlCommand.viewport 0 0 width height]

/-- Handle to a glutin window surface; carries the dimensions passed to
`create_window_surface` (later GL-side resizes live in `GlState`). -/
structure GlSurface where
  width : Nat
  height : Nat
deriving DecidableEq, Repr

/-- Opaque handle to a `PossiblyCurrentContext`. -/
structure GlContext where
  id : Nat
deriving DecidableEq, Repr

/-- Handle to a winit `Window`; carries its inner size at creation. -/
structure WindowHandle where
  width : Nat
  height : Nat
deriving DecidableEq, Repr

/-- The `App` struct (src/main.rs lines 27-32). -/
structure AppState where
  renderer : Option Renderer
  gl_surface : Option GlSurface
  gl_context : Option GlContext
  window : Option WindowHandle
deriving DecidableEq, Repr

/-- `App::new` (src/main.rs lines 35-42). -/
def App.new : AppState := ⟨none, none, none, none⟩

/-- The winit window events the handler matches on; every event other than
the three named arms (including `Resized` with a zero dimension) hits the
source's catch-all `_ => ()` arm; `other tag` stands for the remaining
`WindowEvent` variants. -/
inductive WindowEvent where
  | closeRequested
  | resized (width height : Nat)
  | redrawRequested
  | other (tag : Nat)
deriving DecidableEq, Repr

/-- An observable side effect of the event handler: a GL command, a glutin
surface call, a winit call, or console output. -/
inductive Effect where
  | gl (c : GlCommand)
  | surfaceResize (width height : Nat)
  | requestRedraw
  | present
  | exitLoop
  | println (s : String)
deriving DecidableEq, Repr

/-- The message printed on close (src/main.rs line 142). -/
def closeMessage : String := "The close button was pressed; stopping"

/-- `App::window_event` (src/main.rs lines 134-170). Returns the updated
`App` and the effects issued, or `none` when an `unwrap` panics (a field
still `None`). The `App` fields are never reassigned by any arm (all calls
take the fields by reference), so the state component is always `self`. -/
def window_event (self : AppState) (event : WindowEvent) :
    Option (AppState × List Effect) :=
  match event with
  | WindowEvent.closeRequested =>
      some (self, [Effect.println closeMessage, Effect.exitLoop])
  | WindowEvent.resized w h =>
      if w ≠ 0 ∧ h ≠ 0 then
        match self.gl_context, self.gl_surface with
        | some _, some _ =>
            match self.renderer with
            | some renderer =>
                some (self,
                  Effect.surfaceResize w h ::
                    (renderer.resize (toInt32 w) (toInt32 h)).map Effect.gl)
            | none => none
        | _, _ => none
      else some (self, [])
  | WindowEvent.redrawRequested =>
      match self.gl_surface, self.window, self.gl_context, self.renderer with
      | some _, some _, some _, some renderer =>
          some (self,
            (renderer.draw).map Effect.gl ++ [Effect.requestRedraw, Effect.present])
      | _, _, _, _ => none
  | WindowEvent.other _ => some (self, [])

/-- Driver/platform outcomes consumed by `App::resumed`, in the order the
source consults them. -/
structure ResumedInputs where
  configs : List GlConfig
  windowWidth : Nat
  windowHeight : Nat
  surfaceCreationOk : Bool
  contextCreationOk : Bool
  makeCurrentOk : Bool
  shaderStatus : ShaderOracle
  swapIntervalOk : Bool
deriving DecidableEq, Repr

/-- `App::resumed` (src/main.rs lines 46-132). Every `.unwrap()` on a
driver/platform result is a `none` (process abort): empty config list,
zero window width or height (`NonZeroU32::new(..).unwrap()`), window-surface
or context creation failure, `make_current` failure, and — after the fields
are assigned — `set_swap_interval(..).unwrap()`. `none` models the abort, so
no partially-initialized `App` remains reachable. -/
def resumed (self : AppState) (inp : ResumedInputs) : Option AppState :=
  match selectConfig inp.configs with
  | none => none
  | some _ =>
    if inp.windowWidth = 0 then none
    else if inp.windowHeight = 0 then none
    else if !inp.surfaceCreationOk then none
    else if !inp.contextCreationOk then none
    else if !inp.makeCurrentOk then none
    else
      let self1 : AppState :=
        { gl_context := some ⟨0⟩,
          gl_surface := some ⟨inp.windowWidth, inp.windowHeight⟩,
          window := some ⟨inp.windowWidth, inp.windowHeight⟩,
          renderer := some (self.renderer.getD (Renderer.new inp.shaderStatus).1) }
      if inp.swapIntervalOk then some self1 else none

/-- GL-side state observed by the claims: the active viewport rectangle and
the surface's backing-buffer size (set by `Surface::resize`). -/
structure GlState where
  viewport : Int × Int × Int × Int
  surfaceSize : Option (Nat × Nat)
deriving DecidableEq, Repr

/-- How one effect updates the GL-side state: `gl.Viewport` sets the
viewport, `Surface::resize` sets the backing size; everything else leaves it
unchanged. -/
def interpEffect (s : GlState) (e : Effect) : GlState :=
  match e with
  | Effect.gl (GlCommand.viewport x y w h) => { s with viewport := (x, y, w, h) }
  | Effect.surfaceResize w h => { s with surfaceSize := some (w, h) }
  | _ => s

/-- One delivered event: run the handler and apply its effects to the
GL-side state. -/
def stepApp (p : AppState × GlState) (ev : WindowEvent) :
    Option (AppState × GlState) :=
  match window_event p.1 ev with
  | none => none
  | some (a, effs) => some (a, effs.foldl interpEffect p.2)

/-- Deliver a list of events in receipt order (the single event-processing
thread). -/
def runEvents : AppState × GlState → List WindowEvent → Option (AppState × GlState)
  | p, [] => some p
  | p, ev :: evs =>
    match stepApp p ev with
    | none => none
    | some q => runEvents q evs

/-- The last `Resized` event with both dimensions non-zero in a list of
events, if any. -/
def lastNZ : List WindowEvent → Option (Nat × Nat)
  | [] => none
  | WindowEvent.resized w h :: evs =>
      (match lastNZ evs with
       | some p => some p
       | none => if w ≠ 0 ∧ h ≠ 0 then some (w, h) else none)
  | _ :: evs => lastNZ evs

/-- Modelled from the spec: the winit event loop (`EventLoop::run_app`, not
in src/) delivers window events one at a time in receipt order and, per the
spec's state machine, on "close requested" the loop exits — once `exit()`
has been called no further event is delivered. Returns the full effect
trace, `none` on a handler panic. -/
def runLoop (app : AppState) : List WindowEvent → Option (List Effect)
  | [] => some []
  | ev :: evs =>
    match window_event app ev with
    | none => none
    | some (a, effs) =>
      if Effect.exitLoop ∈ effs then some effs
      else
        match runLoop a evs with
        | none => none
        | some tr => some (effs ++ tr)

/-- The suffix of an effect trace strictly after the first `exitLoop`
(empty when there is none): the effects issued after termination began. -/
def afterExit : List Effect → List Effect
  | [] => []
  | Effect.exitLoop :: tr => tr
  | _ :: tr => afterExit tr

/-- A concrete renderer for witnesses: the one `Renderer::new` yields. -/
def r0 : Renderer := (Renderer.new ⟨true, true, true⟩).1

/-- A concrete Ready `App` for witnesses (800×600 window). -/
def app0 : AppState := ⟨some r0, some ⟨800, 600⟩, some ⟨0⟩, some ⟨800, 600⟩⟩

/-- Inputs to `resumed` on which every platform call succeeds. -/
def inpAllOk : ResumedInputs := ⟨[cT0], 800, 600, true, true, true, ⟨true, true, true⟩, true⟩

/-- Same inputs as `inpAllOk` except that `set_swap_interval` fails. -/
def inpSwapFail : ResumedInputs := ⟨[cT0], 800, 600, true, true, true, ⟨true, true, true⟩, false⟩

/-- Inputs to `resumed` with an empty configuration list. -/
def inpEmptyConfigs : ResumedInputs := ⟨[], 800, 600, true, true, true, ⟨true, true, true⟩, true⟩

/-- When both sides have the same transparency support, the reduce step keeps
whichever has strictly more samples (the accumulator on ties). -/
lemma configStep_equal_transparency (t : Bool) (a c : GlConfig)
    (ha : a.supports_transparency.getD false = t)
    (hc : c.supports_transparency.getD false = t) :
    configStep a c = if c.num_samples > a.num_samples then c else a := by
  unfold configStep
  cases t <;> simp [ha, hc]

/-- Over a list whose members all have transparency support `t`, the fold of
`configStep` returns a member (or the seed) with maximal sample count. -/
lemma foldl_configStep_max (t : Bool) (cs : List GlConfig) :
    ∀ a : GlConfig,
      a.supports_transparency.getD false = t →
      (∀ x ∈ cs, x.supports_transparency.getD false = t) →
      (cs.foldl configStep a = a ∨ cs.foldl configStep a ∈ cs) ∧
      a.num_samples ≤ (cs.foldl configStep a).num_samples ∧
      ∀ x ∈ cs, x.num_samples ≤ (cs.foldl configStep a).num_samples := by
  induction cs with
  | nil =>
    intro a _ _
    simp
  | cons c cs ih =>
    intro a ha hall
    have hc : c.supports_transparency.getD false = t := hall c (by simp)
    have hcs : ∀ x ∈ cs, x.supports_transparency.getD false = t :=
      fun x hx => hall x (List.mem_cons_of_mem c hx)
    have hstep := configStep_equal_transparency t a c ha hc
    by_cases hlt : c.num_samples > a.num_samples
    · have hstep' : configStep a c = c := by rw [hstep, if_pos hlt]
      have hrec := ih c hc hcs
      rw [List.foldl_cons, hstep']
      refine ⟨?_, ?_, ?_⟩
      · rcases hrec.1 with hcase | hcase
        · right; rw [hcase]; exact List.mem_cons_self _ _
        · right; exact List.mem_cons_of_mem c hcase
      · exact le_trans (le_of_lt hlt) hrec.2.1
      · intro x hx
        rcases List.mem_cons.mp hx with rfl | hx
        · exact hrec.2.1
        · exact hrec.2.2 x hx
    · have hstep' : configStep a c = a := by rw [hstep, if_neg hlt]
      have hrec := ih a ha hcs
      rw [List.foldl_cons, hstep']
      refine ⟨?_, ?_, ?_⟩
      · rcases hrec.1 with hcase | hcase
        · left; exact hcase
        · right; exact List.mem_cons_of_mem c hcase
      · exact hrec.2.1
      · intro x hx
        rcases List.mem_cons.mp hx with rfl | hx
        · exact le_trans (Nat.le_of_not_lt hlt) hrec.2.1
        · exact hrec.2.2 x hx

/-- C1 (corrected): among candidates with equal transparency support the
selected configuration is one of the candidates with maximal sample count,
and the spec's listed triple {no-transparency/0, no-transparency/4,
transparency/0}, in that order, selects the transparency/0-sample config.
(The universal "a transparent candidate beats any non-transparent one
regardless of sample count" part of the claim is false on the code's
order-dependent reduce — see `selectConfig_counterexample`.) -/
theorem selectConfig_amended (t : Bool) (c : GlConfig) (cs : List GlConfig)
    (hall : ∀ x ∈ c :: cs, x.supports_transparency.getD false = t) :
    (∃ r, selectConfig (c :: cs) = some r ∧ (r = c ∨ r ∈ cs) ∧
      ∀ x ∈ c :: cs, x.num_samples ≤ r.num_samples) ∧
    selectConfig [cN0, cN4, cT0] = some cT0 := by
  constructor
  · have hc : c.supports_transparency.getD false = t := hall c (by simp)
    have hcs : ∀ x ∈ cs, x.supports_transparency.getD false = t :=
      fun x hx => hall x (List.mem_cons_of_mem c hx)
    have hrec := foldl_configStep_max t cs c hc hcs
    refine ⟨cs.foldl configStep c, rfl, hrec.1, ?_⟩
    intro x hx
    rcases List.mem_cons.mp hx with rfl | hx
    · exact hrec.2.1
    · exact hrec.2.2 x hx
  · decide

/-- Witness for `selectConfig_amended` at the concrete no-transparency pair. -/
theorem selectConfig_amended_witness :
    (∃ r, selectConfig [cN0, cN4] = some r ∧ (r = cN0 ∨ r ∈ [cN4]) ∧
      ∀ x ∈ [cN0, cN4], x.num_samples ≤ r.num_samples) ∧
    selectConfig [cN0, cN4, cT0] = some cT0 :=
  selectConfig_amended false cN0 [cN4] (by decide)

/-- C1 counterexample: from the sequence [transparency/0-sample,
no-transparency/4-sample] the reduce selects the no-transparency config even
though a candidate supports transparency: a later non-transparent candidate
with strictly more samples displaces a transparent accumulator. -/
theorem selectConfig_counterexample :
    cT0.supports_transparency.getD false = true ∧
    selectConfig [cT0, cN4] = some cN4 ∧
    cN4.supports_transparency.getD false = false := by
  decide

/-- C2 (confirmed): a resize with a zero dimension fails the arm's guard and
falls to the catch-all: no effect is issued (no `Surface::resize`, no
viewport command), the `App` fields are unchanged, and the GL-side state
(surface size and viewport) is retained. -/
theorem zero_resize_noop (self : AppState) (s : GlState) (w h : Nat)
    (hz : w = 0 ∨ h = 0) :
    window_event self (WindowEvent.resized w h) = some (self, []) ∧
    stepApp (self, s) (WindowEvent.resized w h) = some (self, s) := by
  have hguard : ¬(w ≠ 0 ∧ h ≠ 0) := by rcases hz with rfl | rfl <;> simp
  constructor
  · simp [window_event, hguard]
  · simp [stepApp, window_event, hguard]

/-- Witness for `zero_resize_noop` at a zero-width resize of a fresh app. -/
theorem zero_resize_noop_witness :
    window_event App.new (WindowEvent.resized 0 5) = some (App.new, []) ∧
    stepApp (App.new, ⟨(0, 0, 0, 0), none⟩) (WindowEvent.resized 0 5) =
      some (App.new, ⟨(0, 0, 0, 0), none⟩) :=
  zero_resize_noop App.new ⟨(0, 0, 0, 0), none⟩ 0 5 (Or.inl rfl)

/-- C7 (code_bug): `Renderer::new` never queries compile or link status
(no GetShaderiv / GetProgramiv calls exist in the source), so its result — a
fully-constructed device with the same handles and the same GL command
trace — is identical whether or not shader compilation and linking
succeeded, and construction never fails. The spec (its section 9 flags the
missing checks as a defect) states the intent; the code silently continues
with a possibly-unlinked program. -/
theorem renderer_new_ignores_shader_status (o : ShaderOracle) :
    Renderer.new o = Renderer.new ⟨true, true, true⟩ := rfl

/-- C4 (code_bug): with every platform call succeeding, `resumed` yields a
fully initialized App; with identical inputs except a failing
`set_swap_interval`, the trailing `.unwrap()` aborts the process (`none`).
The failure to set the interval is fatal, not logged-and-continued as the
spec (and the source's own "Try setting vsync." comment) intend. -/
theorem swap_interval_failure_fatal :
    resumed App.new inpSwapFail = none ∧
    resumed App.new inpAllOk =
      some ⟨some r0, some ⟨800, 600⟩, some ⟨0⟩, some ⟨800, 600⟩⟩ := by
  constructor <;> rfl

/-- C8 (confirmed): `App::resumed` aborts the process (`none`), installing
no surface and no context, whenever the configuration list is empty, either
window dimension is zero, or surface/context creation fails. -/
theorem resumed_fatal (self : AppState) (inp : ResumedInputs)
    (h : inp.configs = [] ∨ inp.windowWidth = 0 ∨ inp.windowHeight = 0 ∨
         inp.surfaceCreationOk = false ∨ inp.contextCreationOk = false) :
    resumed self inp = none := by
  unfold resumed
  cases hsel : selectConfig inp.configs with
  | none => rfl
  | some c =>
    rcases h with h | h | h | h | h
    · rw [h] at hsel; simp [selectConfig] at hsel
    · simp [h]
    · simp [h]
    · simp [h]
    · simp [h]

/-- Witness for `resumed_fatal`: an empty configuration list aborts. -/
theorem resumed_fatal_witness : resumed App.new inpEmptyConfigs = none :=
  resumed_fatal App.new inpEmptyConfigs (Or.inl rfl)

/-- C5 (confirmed): in the Ready state (all four fields present) a
redraw-requested event leaves the `App` unchanged (Ready again) and issues
exactly, in order: the GL commands of `Renderer::draw`, then
`request_redraw` (scheduling the next frame), then `swap_buffers`
(the present). -/
theorem redraw_order (self : AppState) (r : Renderer) (surf : GlSurface)
    (win : WindowHandle) (ctx : GlContext)
    (hs : self.gl_surface = some surf) (hw : self.window = some win)
    (hc : self.gl_context = some ctx) (hr : self.renderer = some r) :
    window_event self WindowEvent.redrawRequested =
      some (self, (Renderer.draw r).map Effect.gl ++
        [Effect.requestRedraw, Effect.present]) := by
  simp [window_event, hs, hw, hc, hr]

/-- Witness for `redraw_order` at the concrete Ready app. -/
theorem redraw_order_witness :
    window_event app0 WindowEvent.redrawRequested =
      some (app0, (Renderer.draw r0).map Effect.gl ++
        [Effect.requestRedraw, Effect.present]) :=
  redraw_order app0 r0 ⟨800, 600⟩ ⟨800, 600⟩ ⟨0⟩ rfl rfl rfl rfl

/-- C9 (confirmed): any window event other than close-requested,
redraw-requested, or a resize with both dimensions non-zero leaves every
`App` field unchanged and issues no device, surface, or context call at
all. -/
theorem other_event_noop (self : AppState) (ev : WindowEvent)
    (h1 : ev ≠ WindowEvent.closeRequested)
    (h2 : ev ≠ WindowEvent.redrawRequested)
    (h3 : ∀ w h, ev = WindowEvent.resized w h → w = 0 ∨ h = 0) :
    window_event self ev = some (self, []) := by
  cases ev with
  | closeRequested => exact absurd rfl h1
  | redrawRequested => exact absurd rfl h2
  | resized w h =>
    have hz := h3 w h rfl
    have hguard : ¬(w ≠ 0 ∧ h ≠ 0) := by rcases hz with rfl | rfl <;> simp
    simp [window_event, hguard]
  | other tag => rfl

/-- Witness for `other_event_noop` at an arbitrary non-matched event. -/
theorem other_event_noop_witness :
    window_event App.new (WindowEvent.other 7) = some (App.new, []) :=
  other_event_noop App.new (WindowEvent.other 7)
    (fun hh => nomatch hh) (fun hh => nomatch hh) (fun _ _ hh => nomatch hh)

/-- C10 (confirmed): `Renderer::draw` equals `draw_with_clear_color` at the
fixed color (0.1, 0.1, 0.1, 0.9) (exact rationals 1/10 and 9/10), and the
redraw handler issues exactly those commands — every frame drawn by the
render loop uses that clear color. -/
theorem draw_fixed_clear_color (self : AppState) (r : Renderer)
    (surf : GlSurface) (win : WindowHandle) (ctx : GlContext)
    (hs : self.gl_surface = some surf) (hw : self.window = some win)
    (hc : self.gl_context = some ctx) (hr : self.renderer = some r) :
    Renderer.draw r =
      Renderer.draw_with_clear_color r (1/10) (1/10) (1/10) (9/10) ∧
    window_event self WindowEvent.redrawRequested =
      some (self,
        (Renderer.draw_with_clear_color r (1/10) (1/10) (1/10) (9/10)).map
          Effect.gl ++ [Effect.requestRedraw, Effect.present]) := by
  refine ⟨rfl, ?_⟩
  simp [window_event, hs, hw, hc, hr, Renderer.draw]

/-- Witness for `draw_fixed_clear_color` at the concrete Ready app. -/
theorem draw_fixed_clear_color_witness :
    Renderer.draw r0 =
      Renderer.draw_with_clear_color r0 (1/10) (1/10) (1/10) (9/10) ∧
    window_event app0 WindowEvent.redrawRequested =
      some (app0,
        (Renderer.draw_with_clear_color r0 (1/10) (1/10) (1/10) (9/10)).map
          Effect.gl ++ [Effect.requestRedraw, Effect.present]) :=
  draw_fixed_clear_color app0 r0 ⟨800, 600⟩ ⟨800, 600⟩ ⟨0⟩ rfl rfl rfl rfl

/-- What one event does to the GL-side state, as a pure function: a resize
with both dimensions non-zero installs viewport (0, 0, w as i32, h as i32)
and surface size (w, h); every other event leaves the state alone. Proved
to characterize `stepApp` in `stepApp_glUpdate`. -/
def eventGlUpdate (s : GlState) (ev : WindowEvent) : GlState :=
  match ev with
  | WindowEvent.resized w h =>
      if w ≠ 0 ∧ h ≠ 0 then ⟨(0, 0, toInt32 w, toInt32 h), some (w, h)⟩ else s
  | _ => s

/-- A successful `stepApp` keeps the `App` unchanged and updates the GL-side
state exactly as `eventGlUpdate` says. -/
lemma stepApp_glUpdate (app : AppState) (s : GlState) (ev : WindowEvent)
    (q : AppState × GlState) (h : stepApp (app, s) ev = some q) :
    q = (app, eventGlUpdate s ev) := by
  cases ev with
  | closeRequested =>
    rw [show stepApp (app, s) WindowEvent.closeRequested = some (app, s) from rfl] at h
    exact (Option.some.inj h).symm
  | other tag =>
    rw [show stepApp (app, s) (WindowEvent.other tag) = some (app, s) from rfl] at h
    exact (Option.some.inj h).symm
  | resized w hgt =>
    by_cases hg : w ≠ 0 ∧ hgt ≠ 0
    · cases hctx : app.gl_context with
      | none => simp [stepApp, window_event, hg, hctx] at h
      | some c =>
        cases hsurf : app.gl_surface with
        | none => simp [stepApp, window_event, hg, hctx, hsurf] at h
        | some sf =>
          cases hr : app.renderer with
          | none => simp [stepApp, window_event, hg, hctx, hsurf, hr] at h
          | some r =>
            simp only [stepApp, window_event, if_pos hg, hctx, hsurf, hr] at h
            simp only [eventGlUpdate, if_pos hg]
            rw [← Option.some.inj h]
            rfl
    · simp only [stepApp, window_event, if_neg hg] at h
      simp only [eventGlUpdate, if_neg hg]
      rw [← Option.some.inj h]
      rfl
  | redrawRequested =>
    cases hsurf : app.gl_surface with
    | none => simp [stepApp, window_event, hsurf] at h
    | some sf =>
      cases hwin : app.window with
      | none => simp [stepApp, window_event, hsurf, hwin] at h
      | some win =>
        cases hctx : app.gl_context with
        | none => simp [stepApp, window_event, hsurf, hwin, hctx] at h
        | some c =>
          cases hr : app.renderer with
          | none => simp [stepApp, window_event, hsurf, hwin, hctx, hr] at h
          | some r =>
            simp only [stepApp, window_event, hsurf, hwin, hctx, hr] at h
            simp only [eventGlUpdate]
            rw [← Option.some.inj h]
            rfl

/-- The GL-side state after a batch of events whose last non-zero resize is
the given pair (initial state when there is none). -/
def glAfter (s : GlState) : Option (Nat × Nat) → GlState
  | none => s
  | some wh => ⟨(0, 0, toInt32 wh.1, toInt32 wh.2), some wh⟩

/-- `u32 as i32` is the identity below 2^31. -/
lemma toInt32_of_lt (x : Nat) (hx : x < 2 ^ 31) : toInt32 x = (x : Int) := by
  unfold toInt32
  rw [if_pos hx]

/-- Pushing one event through `eventGlUpdate` commutes with tracking the
last non-zero resize. -/
lemma glAfter_cons (s : GlState) (ev : WindowEvent) (rest : List WindowEvent) :
    glAfter (eventGlUpdate s ev) (lastNZ rest) = glAfter s (lastNZ (ev :: rest)) := by
  cases ev with
  | resized w h =>
    by_cases hg : w ≠ 0 ∧ h ≠ 0
    · cases hl : lastNZ rest with
      | some p => simp [glAfter, lastNZ, hl]
      | none => simp [glAfter, eventGlUpdate, lastNZ, hl, hg]
    · cases hl : lastNZ rest with
      | some p => simp [glAfter, lastNZ, hl]
      | none => simp [glAfter, eventGlUpdate, lastNZ, hl, hg]
  | closeRequested => simp [eventGlUpdate, lastNZ]
  | redrawRequested => simp [eventGlUpdate, lastNZ]
  | other tag => simp [eventGlUpdate, lastNZ]

/-- A successful run of a batch of events leaves the `App` unchanged and
leaves the GL-side state at `glAfter` of the last non-zero resize. -/
lemma runEvents_track (evs : List WindowEvent) :
    ∀ (app : AppState) (s : GlState) (q : AppState × GlState),
      runEvents (app, s) evs = some q →
      q = (app, glAfter s (lastNZ evs)) := by
  induction evs with
  | nil =>
    intro app s q h
    simp only [runEvents] at h
    simp [glAfter, lastNZ, ← Option.some.inj h]
  | cons ev rest ih =>
    intro app s q h
    unfold runEvents at h
    cases hstep : stepApp (app, s) ev with
    | none => rw [hstep] at h; exact absurd h (by simp)
    | some q1 =>
      rw [hstep] at h
      have hq1 : q1 = (app, eventGlUpdate s ev) := stepApp_glUpdate app s ev q1 hstep
      rw [hq1] at h
      have := ih app (eventGlUpdate s ev) q h
      rw [this, glAfter_cons]

/-- Running a concatenation is running the pieces in sequence. -/
lemma runEvents_append (evs1 evs2 : List WindowEvent) (p : AppState × GlState) :
    runEvents p (evs1 ++ evs2) =
      match runEvents p evs1 with
      | none => none
      | some q => runEvents q evs2 := by
  induction evs1 generalizing p with
  | nil => simp [runEvents]
  | cons ev rest ih =>
    cases h : stepApp p ev with
    | none => simp [runEvents, h]
    | some q => simp [runEvents, h, ih q]

/-- C3 (corrected): along any event sequence that reaches a redraw, the
GL-side state after the prefix has surface size equal to the last non-zero
resize (w, h) and viewport (0, 0, w, h) — provided w and h are below 2^31 —
and processing the redraw itself changes neither, so the draw observes
exactly that viewport: surface resize and viewport update are fully applied
before the draw, and no draw sees a stale viewport. (For a dimension
≥ 2^31 the claim as stated fails: the source's `u32 as i32` cast wraps —
see `viewport_wrap_counterexample`.) -/
theorem resize_then_draw_viewport (app : AppState) (s : GlState)
    (e1 e2 : List WindowEvent) (w h : Nat) (q : AppState × GlState)
    (hw : w < 2 ^ 31) (hh : h < 2 ^ 31)
    (hlast : lastNZ e1 = some (w, h))
    (hrun : runEvents (app, s) (e1 ++ WindowEvent.redrawRequested :: e2) = some q) :
    ∃ s1 : GlState,
      runEvents (app, s) e1 = some (app, s1) ∧
      s1.viewport = (0, 0, (w : Int), (h : Int)) ∧
      s1.surfaceSize = some (w, h) ∧
      stepApp (app, s1) WindowEvent.redrawRequested = some (app, s1) := by
  rw [runEvents_append] at hrun
  cases h1 : runEvents (app, s) e1 with
  | none => rw [h1] at hrun; exact absurd hrun (by simp)
  | some p1 =>
    rw [h1] at hrun
    have hp1 : p1 = (app, glAfter s (lastNZ e1)) := runEvents_track e1 app s p1 h1
    rw [hlast] at hp1
    subst hp1
    have hview : (glAfter s (some (w, h))).viewport = (0, 0, (w : Int), (h : Int)) := by
      simp [glAfter, toInt32_of_lt w hw, toInt32_of_lt h hh]
    have hsize : (glAfter s (some (w, h))).surfaceSize = some (w, h) := rfl
    refine ⟨glAfter s (some (w, h)), rfl, hview, hsize, ?_⟩
    unfold runEvents at hrun
    cases hstep : stepApp (app, glAfter s (some (w, h))) WindowEvent.redrawRequested with
    | none => rw [hstep] at hrun; exact absurd hrun (by simp)
    | some q1 =>
      have hq1 := stepApp_glUpdate app (glAfter s (some (w, h)))
        WindowEvent.redrawRequested q1 hstep
      rw [hq1]
      rfl

/-- Witness for `resize_then_draw_viewport`: resize to 800×600 then redraw. -/
theorem resize_then_draw_viewport_witness :
    ∃ s1 : GlState,
      runEvents (app0, ⟨(0, 0, 0, 0), none⟩) [WindowEvent.resized 800 600] =
        some (app0, s1) ∧
      s1.viewport = (0, 0, (800 : Int), (600 : Int)) ∧
      s1.surfaceSize = some (800, 600) ∧
      stepApp (app0, s1) WindowEvent.redrawRequested = some (app0, s1) :=
  resize_then_draw_viewport app0 ⟨(0, 0, 0, 0), none⟩
    [WindowEvent.resized 800 600] [] 800 600
    (app0, ⟨(0, 0, 800, 600), some (800, 600)⟩)
    (by decide) (by decide) (by decide) (by decide)

/-- C3 counterexample: a resize to width 2^31 (a valid non-zero u32) makes
the handler pass the wrapped value -2^31 to `gl.Viewport` (the source's
`size.width as i32` cast), so the resulting viewport width is not the resize
width. -/
theorem viewport_wrap_counterexample :
    runEvents (app0, ⟨(0, 0, 0, 0), none⟩) [WindowEvent.resized (2 ^ 31) 100] =
      some (app0, ⟨(0, 0, -(2 ^ 31 : Int), 100), some (2 ^ 31, 100)⟩) ∧
    (-(2 ^ 31 : Int)) ≠ ((2 ^ 31 : Nat) : Int) := by
  constructor
  · decide
  · decide

/-- The handler emits `exitLoop` only from the close-requested arm. -/
lemma window_event_no_exit (self : AppState) (ev : WindowEvent)
    (a : AppState) (effs : List Effect)
    (hev : ev ≠ WindowEvent.closeRequested)
    (h : window_event self ev = some (a, effs)) :
    Effect.exitLoop ∉ effs := by
  cases ev with
  | closeRequested => exact absurd rfl hev
  | resized w hgt =>
    by_cases hg : w ≠ 0 ∧ hgt ≠ 0
    · cases hctx : self.gl_context with
      | none => simp [window_event, hg, hctx] at h
      | some c =>
        cases hsurf : self.gl_surface with
        | none => simp [window_event, hg, hctx, hsurf] at h
        | some sf =>
          cases hr : self.renderer with
          | none => simp [window_event, hg, hctx, hsurf, hr] at h
          | some r =>
            simp only [window_event, if_pos hg, hctx, hsurf, hr,
              Option.some.injEq, Prod.mk.injEq] at h
            rw [← h.2]
            simp [Renderer.resize]
    · simp only [window_event, if_neg hg, Option.some.injEq, Prod.mk.injEq] at h
      rw [← h.2]
      exact List.not_mem_nil _
  | redrawRequested =>
    cases hsurf : self.gl_surface with
    | none => simp [window_event, hsurf] at h
    | some sf =>
      cases hwin : self.window with
      | none => simp [window_event, hsurf, hwin] at h
      | some win =>
        cases hctx : self.gl_context with
        | none => simp [window_event, hsurf, hwin, hctx] at h
        | some c =>
          cases hr : self.renderer with
          | none => simp [window_event, hsurf, hwin, hctx, hr] at h
          | some r =>
            simp only [window_event, hsurf, hwin, hctx, hr,
              Option.some.injEq, Prod.mk.injEq] at h
            rw [← h.2]
            simp [Renderer.draw, Renderer.draw_with_clear_color]
  | other tag =>
    simp only [window_event, Option.some.injEq, Prod.mk.injEq] at h
    rw [← h.2]
    exact List.not_mem_nil _

/-- Effects before the first `exitLoop` do not affect the post-termination
suffix. -/
lemma afterExit_append (l1 l2 : List Effect) (h : Effect.exitLoop ∉ l1) :
    afterExit (l1 ++ l2) = afterExit l2 := by
  induction l1 with
  | nil => rfl
  | cons e rest ih =>
    have hrest : Effect.exitLoop ∉ rest := fun hm => h (List.mem_cons_of_mem _ hm)
    cases e with
    | exitLoop => exact absurd (List.mem_cons_self _ _) h
    | gl c => simpa [afterExit] using ih hrest
    | surfaceResize w hgt => simpa [afterExit] using ih hrest
    | requestRedraw => simpa [afterExit] using ih hrest
    | present => simpa [afterExit] using ih hrest
    | println s => simpa [afterExit] using ih hrest

/-- Along a run whose prefix contains no close-requested event, the trace up
to and including the close has nothing after its `exitLoop`. -/
lemma runLoop_close_trace (e1 : List WindowEvent) :
    ∀ (app : AppState) (e2 : List WindowEvent) (tr : List Effect),
      WindowEvent.closeRequested ∉ e1 →
      runLoop app (e1 ++ WindowEvent.closeRequested :: e2) = some tr →
      afterExit tr = [] := by
  induction e1 with
  | nil =>
    intro app e2 tr _ h2
    simp only [List.nil_append, runLoop, window_event] at h2
    rw [if_pos (by simp)] at h2
    rw [← Option.some.inj h2]
    rfl
  | cons ev rest ih =>
    intro app e2 tr h1 h2
    have hev : ev ≠ WindowEvent.closeRequested :=
      fun hh => h1 (hh ▸ List.mem_cons_self _ _)
    have hrest : WindowEvent.closeRequested ∉ rest :=
      fun hm => h1 (List.mem_cons_of_mem _ hm)
    rw [List.cons_append] at h2
    cases hwe : window_event app ev with
    | none => simp [runLoop, hwe] at h2
    | some p =>
      obtain ⟨a, effs⟩ := p
      simp only [runLoop, hwe] at h2
      have hnoexit : Effect.exitLoop ∉ effs :=
        window_event_no_exit app ev a effs hev hwe
      rw [if_neg hnoexit] at h2
      cases hrl : runLoop a (rest ++ WindowEvent.closeRequested :: e2) with
      | none => simp [hrl] at h2
      | some tr2 =>
        simp only [hrl] at h2
        rw [← Option.some.inj h2, afterExit_append effs tr2 hnoexit]
        exact ih a e2 tr2 hrest hrl

/-- C6 (confirmed): for any event sequence in which a close-requested event
occurs (split at its first occurrence), the program's effect trace contains
nothing after the `exitLoop` triggered by the close — in particular no
redraw request is ever issued once termination begins. -/
theorem no_redraw_after_close (app : AppState) (e1 e2 : List WindowEvent)
    (tr : List Effect)
    (h1 : WindowEvent.closeRequested ∉ e1)
    (h2 : runLoop app (e1 ++ WindowEvent.closeRequested :: e2) = some tr) :
    Effect.requestRedraw ∉ afterExit tr ∧ afterExit tr = [] := by
  have hs := runLoop_close_trace e1 app e2 tr h1 h2
  exact ⟨by rw [hs]; exact List.not_mem_nil _, hs⟩

/-- Witness for `no_redraw_after_close`: a redraw, then close, then one more
redraw event that is never delivered. -/
theorem no_redraw_after_close_witness :
    Effect.requestRedraw ∉ afterExit (((Renderer.draw r0).map Effect.gl ++
      [Effect.requestRedraw, Effect.present]) ++
      [Effect.println closeMessage, Effect.exitLoop]) ∧
    afterExit (((Renderer.draw r0).map Effect.gl ++
      [Effect.requestRedraw, Effect.present]) ++
      [Effect.println closeMessage, Effect.exitLoop]) = [] :=
  no_redraw_after_close app0 [WindowEvent.redrawRequested]
    [WindowEvent.redrawRequested] _ (by decide) (by rfl)
